import Mathlib

/-!
Shallow embedding of the occurrence-resolution core of
`erstelle_kalender.py` (week-calendar generator).

Modelling conventions:
* A local date-time is an `Int`, counted in minutes; `dateOf` and `timeOf`
  recover the calendar day and the minute-of-day (Python's `//`/`%` on a
  positive modulus are Euclidean division, i.e. Lean's `/` and `%` on `Int`).
* `to_local` normalization, `html.escape`, and `.strip()` are identities in
  this model: all string and instant values on a component are taken
  post-normalization, which the claims under study never depend on.
* The dateutil recurrence library is external to the repository; a component
  carries, in `rruleBetween`, the list of instants that
  `rule.between(search_start, search_end, inc=True)` returns, already
  localized.  `none` means the component has no RRULE.
* A Python exception raised while reading a malformed RDATE property is
  modelled by the `rdatesMalformed` flag: processing stops at the RDATE
  step and the error is reported, with all mutations made before that step
  kept (Python mutates the shared dictionaries in place).
-/

/-- Calendar day of a local instant (Python `datetime.date()`), minutes model. -/
def dateOf (t : Int) : Int := t / 1440

/-- Minute of day of a local instant (Python `datetime.time()` vs `time.min`). -/
def timeOf (t : Int) : Int := t % 1440

/-- Two-digit zero padding, as produced by `%H`/`%M` formatting. -/
def pad2 (n : Int) : String := if n < 10 then "0" ++ toString n else toString n

/-- `HH:MM` rendering of a local instant (Python `f"{dt:%H:%M}"`). -/
def fmtHM (t : Int) : String := pad2 (timeOf t / 60) ++ ":" ++ pad2 (timeOf t % 60)

/-- One entry of a day bucket: the `event_data` dictionary built in
`add_event_local` (summary, location, time label, all-day flag, sort key,
optional uid). -/
structure EventData where
  summary : String
  location : String
  time : String
  is_all_day : Bool
  start_time : Int
  uid : Option String
deriving DecidableEq, Repr

/-- One `VEVENT` component, after time normalization.  Fields mirror the
properties the script reads: `uid`, `summary`, `location`, `status`
(already stripped and upper-cased), `recurrence_id` (RECURRENCE-ID),
`dtstart`, `dtend`, `duration` (minutes), whether DTSTART is a DATE value,
the localized output of the external rrule expansion, localized EXDATEs and
RDATEs, and the malformed-RDATE failure flag. -/
structure VComponent where
  uid : String
  summary : String
  location : String
  status : String
  recurrence_id : Option Int
  dtstart : Option Int
  dtend : Option Int
  duration : Option Int
  dtstartIsDate : Bool
  rruleBetween : Option (List Int)
  exdates : List Int
  rdates : List Int
  rdatesMalformed : Bool
deriving DecidableEq, Repr

/-- `is_all_day_component`: DTSTART exists and is a DATE value. -/
def is_all_day_component (c : VComponent) : Bool := c.dtstart.isSome && c.dtstartIsDate

/-- The label rules of `add_event_local` for one touched day `current`:
returns the time text and the all-day flag. -/
def event_label (all_day : Bool) (start_local end_local current loop_end_date : Int) :
    String × Bool :=
  if all_day then ("Ganztägig", true)
  else
    let ts :=
      if dateOf start_local = dateOf end_local then
        fmtHM start_local ++ " – " ++ fmtHM end_local
      else if (timeOf end_local = 0 ∧ dateOf start_local < dateOf end_local) ∧
          current = dateOf start_local then
        if timeOf start_local = 0 then "Ganztägig" else fmtHM start_local ++ " – 00:00"
      else if current = dateOf start_local then "Start: " ++ fmtHM start_local
      else if current = loop_end_date ∧ 0 < timeOf end_local then "Ende: " ++ fmtHM end_local
      else "Ganztägig"
    (ts, ts == "Ganztägig")

/-- The `event_data` dictionary appended to the bucket of day `current`. -/
def mk_event (all_day : Bool) (start_local end_local loop_end_date : Int)
    (summary location : String) (event_uid : Option String) (current : Int) : EventData :=
  let lb := event_label all_day start_local end_local current loop_end_date
  { summary := summary, location := location, time := lb.1, is_all_day := lb.2,
    start_time := start_local, uid := event_uid }

/-- `week_events[current].append(event_data)`: append to the bucket of day `d`. -/
def append_event (we : List (Int × List EventData)) (d : Int) (ev : EventData) :
    List (Int × List EventData) :=
  we.map (fun p => if p.1 = d then (p.1, p.2 ++ [ev]) else p)

/-- The `while current <= loop_end_date` loop of `add_event_local`, with the
iteration count supplied as fuel (the loop advances by one day per step, so
the count is `loop_end_date + 1 - current`, clamped at zero). -/
def add_days_go (mk : Int → EventData) (week_days : List Int) :
    Nat → Int → List (Int × List EventData) → List (Int × List EventData)
  | 0, _, we => we
  | n + 1, current, we =>
      add_days_go mk week_days n (current + 1)
        (if current ∈ week_days then append_event we current (mk current) else we)

/-- The `loop_end_date` computation of `add_event_local`: DTEND is exclusive,
so when the occurrence is all-day or ends at midnight, with positive duration,
the last looped day is the day before the end date. -/
def loop_end_of (c : VComponent) (start_local end_local : Int) : Int :=
  if (is_all_day_component c = true ∨ timeOf end_local = 0) ∧ start_local < end_local then
    dateOf end_local - 1
  else dateOf end_local

/-- `add_event_local`: split one occurrence interval into per-day segments and
append them to the buckets of the visible days. -/
def add_event_local (we : List (Int × List EventData)) (c : VComponent)
    (start_local end_local : Int) (summary location : String)
    (week_days : List Int) (event_uid : Option String) : List (Int × List EventData) :=
  let all_day := is_all_day_component c
  let loop_end_date := loop_end_of c start_local end_local
  add_days_go (mk_event all_day start_local end_local loop_end_date summary location event_uid)
    week_days (loop_end_date + 1 - dateOf start_local).toNat (dateOf start_local) we

/-- The mutable run state of `erstelle_kalender_html`: the dedup key set, the
cancelled key set, and the day-bucket mapping (association list over the five
visible days). -/
structure St where
  dedup_keys : List (String × Int)
  cancelled_occurrences : List (String × Int)
  week_events : List (Int × List EventData)
deriving DecidableEq, Repr

/-- `str(component.get("summary") or "Ohne Titel")`. -/
def summary_of (c : VComponent) : String := if c.summary = "" then "Ohne Titel" else c.summary

/-- `uid or f"{summary}|{location}"`: the dedup / cancellation identity. -/
def dedup_id_of (uid summary_str location_str : String) : String :=
  if uid = "" then summary_str ++ "|" ++ location_str else uid

/-- `add_occurrence`: register one occurrence under its dedup key unless the
key is already cancelled or already registered; on success append its per-day
segments and (re-)discard the key from the cancelled set. -/
def add_occurrence (week_days : List Int) (st : St) (c : VComponent)
    (occ_start occ_end : Int) (summary_str : String) : St :=
  let uid := c.uid
  let location_str := c.location
  let dedup_key := (dedup_id_of uid summary_str location_str, occ_start)
  if dedup_key ∈ st.cancelled_occurrences then st
  else if dedup_key ∈ st.dedup_keys then st
  else
    { dedup_keys := st.dedup_keys ++ [dedup_key]
      cancelled_occurrences := st.cancelled_occurrences.filter (fun k => k ≠ dedup_key)
      week_events := add_event_local st.week_events c occ_start occ_end summary_str
        location_str week_days (if uid = "" then none else some uid) }

/-- The `ev` survives a cancellation purge when it does not match the
cancellation's start instant and identity (uid when present, else summary and
location). -/
def cancel_filter (uid summary_str location_str : String) (cancel_start : Int)
    (ev : EventData) : Bool :=
  if uid = "" then
    !(ev.start_time == cancel_start && ev.summary == summary_str &&
      ev.location == location_str)
  else
    !(ev.start_time == cancel_start && ev.uid == some uid)

/-- The `status == "CANCELLED"` branch of the main loop: record the cancelled
key, drop it from the dedup set, and purge matching events from every bucket. -/
def apply_cancel (st : St) (uid summary_str location_str : String)
    (cancel_start : Int) : St :=
  let cancel_key := (dedup_id_of uid summary_str location_str, cancel_start)
  { dedup_keys := st.dedup_keys.filter (fun k => k ≠ cancel_key)
    cancelled_occurrences :=
      if cancel_key ∈ st.cancelled_occurrences then st.cancelled_occurrences
      else st.cancelled_occurrences ++ [cancel_key]
    week_events := st.week_events.map
      (fun p => (p.1, p.2.filter (cancel_filter uid summary_str location_str cancel_start))) }

/-- The override index: `(uid, recurrence-id instant) → component`. -/
abbrev Overrides := List ((String × Int) × VComponent)

/-- Python dict assignment: replace in place when the key exists, else append. -/
def ov_insert (m : Overrides) (k : String × Int) (c : VComponent) : Overrides :=
  if m.any (fun p => p.1 == k) then m.map (fun p => if p.1 = k then (k, c) else p)
  else m ++ [(k, c)]

/-- Key membership in the override index. -/
def ov_mem (m : Overrides) (k : String × Int) : Bool := m.any (fun p => p.1 == k)

/-- The pre-pass collecting all components carrying a RECURRENCE-ID. -/
def build_overrides (vevents : List VComponent) : Overrides :=
  vevents.foldl (fun m c =>
    match c.recurrence_id with
    | none => m
    | some r => ov_insert m (c.uid, r) c) []

/-- End instant of a component: DTEND when present, else DTSTART plus
DURATION, else DTSTART itself. -/
def end_local_of (start_local : Int) (c : VComponent) : Int :=
  match c.dtend, c.duration with
  | none, some dur => start_local + dur
  | some e, _ => e
  | none, none => start_local

/-- The body of the per-component loop of `erstelle_kalender_html`, with the
surrounding `try`/`except` made explicit: the returned state carries every
mutation made before a failure, and the optional string is the reported
error.  Branch order follows the source: CANCELLED handling first, then the
RECURRENCE-ID skip, the DTSTART guard, RRULE expansion (with EXDATE and
override skips) or the single occurrence, then RDATE expansion (override
skip only). -/
def process_component (week_days : List Int) (ov : Overrides) (st : St)
    (c : VComponent) : St × Option String :=
  let summary_str := summary_of c
  let location_str := c.location
  let uid := c.uid
  if c.status = "CANCELLED" then
    match c.recurrence_id.orElse (fun _ => c.dtstart) with
    | none => (st, none)
    | some cancel_start => (apply_cancel st uid summary_str location_str cancel_start, none)
  else if c.recurrence_id.isSome then (st, none)
  else
    match c.dtstart with
    | none => (st, none)
    | some start_local =>
      let end_local := end_local_of start_local c
      let dur := end_local - start_local
      let st1 :=
        match c.rruleBetween with
        | some occs =>
          occs.foldl (fun s occ =>
            if occ ∈ c.exdates then s
            else if ov_mem ov (uid, occ) then s
            else add_occurrence week_days s c occ (occ + dur) summary_str) st
        | none => add_occurrence week_days st c start_local end_local summary_str
      if c.rdatesMalformed then
        (st1, some ("Fehler beim Verarbeiten eines Termins: " ++ summary_str))
      else
        (c.rdates.foldl (fun s r =>
          if ov_mem ov (uid, r) then s
          else add_occurrence week_days s c r (r + dur) summary_str) st1, none)

/-- The body of the override loop: skip CANCELLED overrides, otherwise
materialize the override with its own summary, start and end, at its own
start instant. -/
def process_override (week_days : List Int) (st : St) (oc : VComponent) : St :=
  if oc.status = "CANCELLED" then st
  else
    match oc.dtstart with
    | none => st
    | some occ_start =>
      add_occurrence week_days st oc occ_start (end_local_of occ_start oc) (summary_of oc)

/-- The main event loop: threads the state through every component, keeping
the partial state of a failing component and collecting the reported errors. -/
def main_loop (week_days : List Int) (ov : Overrides) (cs : List VComponent)
    (p : St × List String) : St × List String :=
  cs.foldl (fun q c =>
    let r := process_component week_days ov q.1 c
    (r.1, q.2 ++ r.2.toList)) p

/-- The override loop over the values of the override index. -/
def override_loop (week_days : List Int) (ov : Overrides) (st : St) : St :=
  ov.foldl (fun s p => process_override week_days s p.2) st

/-- The five visible local days, Monday through Friday. -/
def week_days_of (monday : Int) : List Int :=
  [monday, monday + 1, monday + 2, monday + 3, monday + 4]

/-- `week_events = {d: [] for d in week_days_local}` plus the two empty key
sets. -/
def init_state (week_days : List Int) : St :=
  { dedup_keys := [], cancelled_occurrences := [],
    week_events := week_days.map (fun d => (d, [])) }

/-- One whole resolution run: build the override index, run the main loop,
then the override loop; returns the final state and the reported errors. -/
def run (monday : Int) (vevents : List VComponent) : St × List String :=
  let wd := week_days_of monday
  let ov := build_overrides vevents
  let p := main_loop wd ov vevents (init_state wd, [])
  (override_loop wd ov p.1, p.2)

/-- Bucket lookup in the day→events mapping (empty for a missing day). -/
def bucket_of (we : List (Int × List EventData)) (d : Int) : List EventData :=
  match we.find? (fun p => p.1 == d) with
  | none => []
  | some p => p.2

/-- The instants the RRULE/single-event phase materializes: the rule-generated
instants surviving the EXDATE and override skips, or the single DTSTART. -/
def phase1_starts (ov : Overrides) (c : VComponent) (start_local : Int) : List Int :=
  match c.rruleBetween with
  | some occs =>
      occs.filter (fun occ => decide (occ ∉ c.exdates) && !ov_mem ov (c.uid, occ))
  | none => [start_local]

/-- The RDATE instants surviving the override skip (no EXDATE filter here,
mirroring the source). -/
def rdate_starts (ov : Overrides) (c : VComponent) : List Int :=
  c.rdates.filter (fun r => !ov_mem ov (c.uid, r))

/-- All instants a non-cancelled, non-override component materializes. -/
def materialized_starts (ov : Overrides) (c : VComponent) (start_local : Int) : List Int :=
  phase1_starts ov c start_local ++ rdate_starts ov c


/-! ### Helper lemmas: key-set filters -/

lemma filter_ne_of_not_mem {α : Type} [DecidableEq α] (l : List α) (k : α) (h : k ∉ l) :
    l.filter (fun a => a ≠ k) = l := by
  induction l with
  | nil => rfl
  | cons a l ih =>
    simp only [List.mem_cons, not_or] at h
    have ha : a ≠ k := fun e => h.1 e.symm
    rw [List.filter_cons_of_pos (by simp [ha]), ih h.2]

lemma filter_ne_append_singleton {α : Type} [DecidableEq α] (l : List α) (k : α) :
    (l ++ [k]).filter (fun a => a ≠ k) = l.filter (fun a => a ≠ k) := by
  simp [List.filter_append]

/-! ### Helper lemmas: buckets and the day loop -/

lemma append_event_cons (p : Int × List EventData) (we : List (Int × List EventData))
    (d : Int) (ev : EventData) :
    append_event (p :: we) d ev
      = (if p.1 = d then (p.1, p.2 ++ [ev]) else p) :: append_event we d ev := rfl

lemma bucket_of_cons (p : Int × List EventData) (we : List (Int × List EventData)) (d : Int) :
    bucket_of (p :: we) d = if p.1 = d then p.2 else bucket_of we d := by
  by_cases h : p.1 = d
  · simp [bucket_of, List.find?_cons, h]
  · simp [bucket_of, List.find?_cons, h]

lemma append_event_map_fst (we : List (Int × List EventData)) (d : Int) (ev : EventData) :
    (append_event we d ev).map Prod.fst = we.map Prod.fst := by
  induction we with
  | nil => rfl
  | cons p we ih =>
    rw [append_event_cons]
    by_cases h : p.1 = d <;> simp [h, ih]

lemma bucket_of_append_ne (we : List (Int × List EventData)) (d d2 : Int) (ev : EventData)
    (h : d2 ≠ d) : bucket_of (append_event we d ev) d2 = bucket_of we d2 := by
  induction we with
  | nil => rfl
  | cons p we ih =>
    rw [append_event_cons]
    by_cases hp : p.1 = d
    · have hd : ¬(p.1 = d2) := by rw [hp]; exact fun e => h e.symm
      have hne : ¬((p.1, p.2 ++ [ev]).1 = d2) := hd
      rw [bucket_of_cons, bucket_of_cons, if_pos hp, if_neg hne, if_neg hd]
      exact ih
    · rw [bucket_of_cons, bucket_of_cons, if_neg hp]
      by_cases hp2 : p.1 = d2
      · simp [hp2]
      · simp [hp2, ih]

lemma bucket_of_append_self (we : List (Int × List EventData)) (d : Int) (ev : EventData)
    (h : we.any (fun p => p.1 == d) = true) :
    bucket_of (append_event we d ev) d = bucket_of we d ++ [ev] := by
  induction we with
  | nil => simp at h
  | cons p we ih =>
    rw [append_event_cons]
    by_cases hp : p.1 = d
    · rw [bucket_of_cons, bucket_of_cons, if_pos hp, if_pos hp, if_pos (by simp [hp])]
    · simp only [List.any_cons, Bool.or_eq_true, beq_iff_eq] at h
      rcases h with h | h
      · exact absurd h hp
      · rw [bucket_of_cons, bucket_of_cons, if_neg hp, if_neg hp, if_neg hp]
        exact ih h

lemma any_key_append_event (we : List (Int × List EventData)) (d d2 : Int) (ev : EventData) :
    (append_event we d ev).any (fun p => p.1 == d2) = we.any (fun p => p.1 == d2) := by
  induction we with
  | nil => rfl
  | cons p we ih =>
    rw [append_event_cons]
    by_cases hp : p.1 = d <;> simp [hp, ih]

lemma add_days_go_bucket_outside (mk : Int → EventData) (wd : List Int) :
    ∀ (n : Nat) (cur : Int) (we : List (Int × List EventData)) (d : Int),
      (d < cur ∨ cur + (n : Int) ≤ d) →
      bucket_of (add_days_go mk wd n cur we) d = bucket_of we d := by
  intro n
  induction n with
  | zero => intro cur we d _; rfl
  | succ n ih =>
    intro cur we d h
    have hne : d ≠ cur := by omega
    have h2 : d < cur + 1 ∨ (cur + 1) + (n : Int) ≤ d := by
      push_cast at h ⊢; omega
    show bucket_of (add_days_go mk wd n (cur + 1) _) d = bucket_of we d
    rw [ih (cur + 1) _ d h2]
    by_cases hw : cur ∈ wd
    · rw [if_pos hw, bucket_of_append_ne _ _ _ _ hne]
    · rw [if_neg hw]

lemma any_key_add_days_go (mk : Int → EventData) (wd : List Int) :
    ∀ (n : Nat) (cur : Int) (we : List (Int × List EventData)) (d : Int),
      (add_days_go mk wd n cur we).any (fun p => p.1 == d) = we.any (fun p => p.1 == d) := by
  intro n
  induction n with
  | zero => intro cur we d; rfl
  | succ n ih =>
    intro cur we d
    show (add_days_go mk wd n (cur + 1) _).any _ = _
    rw [ih]
    by_cases hw : cur ∈ wd
    · rw [if_pos hw, any_key_append_event]
    · rw [if_neg hw]

lemma add_days_go_bucket_hit (mk : Int → EventData) (wd : List Int) :
    ∀ (n : Nat) (cur : Int) (we : List (Int × List EventData)) (d : Int),
      cur ≤ d → d < cur + (n : Int) → d ∈ wd → we.any (fun p => p.1 == d) = true →
      bucket_of (add_days_go mk wd n cur we) d = bucket_of we d ++ [mk d] := by
  intro n
  induction n with
  | zero => intro cur we d h1 h2 _ _; push_cast at h2; omega
  | succ n ih =>
    intro cur we d h1 h2 hwd hkey
    show bucket_of (add_days_go mk wd n (cur + 1) _) d = bucket_of we d ++ [mk d]
    by_cases hcd : d = cur
    · subst hcd
      rw [if_pos hwd, add_days_go_bucket_outside mk wd n (d + 1) _ d (Or.inl (by omega)),
        bucket_of_append_self _ _ _ hkey]
    · have h1b : cur + 1 ≤ d := by omega
      have h2b : d < (cur + 1) + (n : Int) := by push_cast at h2 ⊢; omega
      by_cases hw : cur ∈ wd
      · rw [if_pos hw,
          ih (cur + 1) _ d h1b h2b hwd (by rw [any_key_append_event]; exact hkey),
          bucket_of_append_ne _ _ _ _ hcd]
      · rw [if_neg hw, ih (cur + 1) _ d h1b h2b hwd hkey]

lemma add_days_go_map_fst (mk : Int → EventData) (wd : List Int) :
    ∀ (n : Nat) (cur : Int) (we : List (Int × List EventData)),
      (add_days_go mk wd n cur we).map Prod.fst = we.map Prod.fst := by
  intro n
  induction n with
  | zero => intro cur we; rfl
  | succ n ih =>
    intro cur we
    show (add_days_go mk wd n (cur + 1) _).map Prod.fst = _
    rw [ih]
    by_cases hw : cur ∈ wd
    · rw [if_pos hw, append_event_map_fst]
    · rw [if_neg hw]

lemma bucket_of_eq_nil_of_not_key (we : List (Int × List EventData)) (d : Int)
    (h : d ∉ we.map Prod.fst) : bucket_of we d = [] := by
  induction we with
  | nil => rfl
  | cons p we ih =>
    simp only [List.map_cons, List.mem_cons, not_or] at h
    rw [bucket_of_cons, if_neg (fun e => h.1 e.symm)]
    exact ih h.2

/-! ### Helper lemmas: the cancellation purge -/

/-- Proof-side abbreviation for the per-bucket filtering a cancellation does. -/
def purge (p : EventData → Bool) (we : List (Int × List EventData)) :
    List (Int × List EventData) :=
  we.map (fun q => (q.1, q.2.filter p))

lemma purge_append_event (p : EventData → Bool) (we : List (Int × List EventData))
    (d : Int) (ev : EventData) (h : p ev = false) :
    purge p (append_event we d ev) = purge p we := by
  induction we with
  | nil => rfl
  | cons q we ih =>
    rw [append_event_cons]
    by_cases hq : q.1 = d
    · simp only [purge, List.map_cons, if_pos hq, List.filter_append, List.filter_cons,
        h, List.filter_nil, List.append_nil]
      simpa [purge] using ih
    · simp only [purge, List.map_cons, if_neg hq]
      simpa [purge] using ih

lemma purge_add_days_go (p : EventData → Bool) (mk : Int → EventData) (wd : List Int)
    (hmk : ∀ d, p (mk d) = false) :
    ∀ (n : Nat) (cur : Int) (we : List (Int × List EventData)),
      purge p (add_days_go mk wd n cur we) = purge p we := by
  intro n
  induction n with
  | zero => intro cur we; rfl
  | succ n ih =>
    intro cur we
    show purge p (add_days_go mk wd n (cur + 1) _) = purge p we
    rw [ih]
    by_cases hw : cur ∈ wd
    · rw [if_pos hw, purge_append_event p we cur (mk cur) (hmk cur)]
    · rw [if_neg hw]

lemma purge_add_event_local (p : EventData → Bool) (we : List (Int × List EventData))
    (c : VComponent) (s e : Int) (sm lc : String) (wd : List Int) (u : Option String)
    (hmk : ∀ le cur, p (mk_event (is_all_day_component c) s e le sm lc u cur) = false) :
    purge p (add_event_local we c s e sm lc wd u) = purge p we := by
  unfold add_event_local
  exact purge_add_days_go p _ wd (fun d => hmk _ d) _ _ we

lemma bucket_of_purge (p : EventData → Bool) (we : List (Int × List EventData)) (d : Int) :
    bucket_of (purge p we) d = (bucket_of we d).filter p := by
  induction we with
  | nil => rfl
  | cons q we ih =>
    by_cases hq : q.1 = d
    · simp only [purge, List.map_cons]
      rw [bucket_of_cons, bucket_of_cons, if_pos hq, if_pos hq]
    · simp only [purge, List.map_cons]
      rw [bucket_of_cons, bucket_of_cons, if_neg hq, if_neg hq]
      simpa [purge] using ih

/-! ### Helper lemmas: folds and invariants -/

lemma foldl_inv {α β : Type} (f : β → α → β) (P : β → Prop)
    (h : ∀ b a, P b → P (f b a)) : ∀ (l : List α) (b : β), P b → P (l.foldl f b) := by
  intro l
  induction l with
  | nil => intro b hb; exact hb
  | cons a l ih => intro b hb; exact ih (f b a) (h b a hb)

lemma rrule_fold_eq (wd : List Int) (ov : Overrides) (c : VComponent)
    (sm : String) (dur : Int) :
    ∀ (l : List Int) (st : St),
      l.foldl (fun s occ =>
        if occ ∈ c.exdates then s
        else if ov_mem ov (c.uid, occ) then s
        else add_occurrence wd s c occ (occ + dur) sm) st
      = (l.filter (fun occ => decide (occ ∉ c.exdates) && !ov_mem ov (c.uid, occ))).foldl
          (fun s occ => add_occurrence wd s c occ (occ + dur) sm) st := by
  intro l
  induction l with
  | nil => intro st; rfl
  | cons occ l ih =>
    intro st
    by_cases h1 : occ ∈ c.exdates
    · rw [List.foldl_cons, if_pos h1, List.filter_cons_of_neg (by simp [h1]), ih]
    · by_cases h2 : ov_mem ov (c.uid, occ) = true
      · rw [List.foldl_cons, if_neg h1, if_pos h2, List.filter_cons_of_neg (by simp [h1, h2]), ih]
      · rw [List.foldl_cons, if_neg h1, if_neg h2,
          List.filter_cons_of_pos (by simp [h1, h2]), List.foldl_cons]
        exact ih _

lemma rdate_fold_eq (wd : List Int) (ov : Overrides) (c : VComponent)
    (sm : String) (dur : Int) :
    ∀ (l : List Int) (st : St),
      l.foldl (fun s r =>
        if ov_mem ov (c.uid, r) then s
        else add_occurrence wd s c r (r + dur) sm) st
      = (l.filter (fun r => !ov_mem ov (c.uid, r))).foldl
          (fun s r => add_occurrence wd s c r (r + dur) sm) st := by
  intro l
  induction l with
  | nil => intro st; rfl
  | cons r l ih =>
    intro st
    by_cases h2 : ov_mem ov (c.uid, r) = true
    · rw [List.foldl_cons, if_pos h2, List.filter_cons_of_neg (by simp [h2]), ih]
    · rw [List.foldl_cons, if_neg (by simp [h2]), List.filter_cons_of_pos
        (by simp [Bool.eq_false_iff.mpr h2]), List.foldl_cons, ih]

/-- Characterization of a non-cancelled, non-override component's processing:
the state is the fold of `add_occurrence` over exactly the instants in
`materialized_starts`, each paired with the end instant a constant duration
away, and no error is reported. -/
lemma process_component_eq (wd : List Int) (ov : Overrides) (st : St) (c : VComponent)
    (s : Int) (hst : ¬c.status = "CANCELLED") (hrec : c.recurrence_id = none)
    (hdt : c.dtstart = some s) (hrd : c.rdatesMalformed = false) :
    process_component wd ov st c
      = ((materialized_starts ov c s).foldl
          (fun q t => add_occurrence wd q c t (t + (end_local_of s c - s)) (summary_of c)) st,
         none) := by
  unfold process_component
  rw [if_neg hst, hrec]
  simp only [Option.isSome_none, Bool.false_eq_true, if_false, hdt]
  unfold materialized_starts
  rw [List.foldl_append]
  cases hrr : c.rruleBetween with
  | some occs =>
    simp only [hrd, Bool.false_eq_true, if_false]
    rw [rrule_fold_eq, rdate_fold_eq]
    unfold phase1_starts rdate_starts
    rw [hrr]
  | none =>
    simp only [hrd, Bool.false_eq_true, if_false]
    rw [rdate_fold_eq]
    unfold phase1_starts rdate_starts
    rw [hrr, List.foldl_cons, List.foldl_nil]
    have he : s + (end_local_of s c - s) = end_local_of s c := by omega
    rw [he]

/-- Characterization of a component whose RDATE property is malformed: every
mutation of the rrule/single-event phase is kept, the RDATE phase never runs,
and an error naming the component is reported. -/
lemma process_component_malformed (wd : List Int) (ov : Overrides) (st : St) (c : VComponent)
    (s : Int) (hst : ¬c.status = "CANCELLED") (hrec : c.recurrence_id = none)
    (hdt : c.dtstart = some s) (hrd : c.rdatesMalformed = true) :
    process_component wd ov st c
      = ((phase1_starts ov c s).foldl
          (fun q t => add_occurrence wd q c t (t + (end_local_of s c - s)) (summary_of c)) st,
         some ("Fehler beim Verarbeiten eines Termins: " ++ summary_of c)) := by
  unfold process_component
  rw [if_neg hst, hrec]
  simp only [Option.isSome_none, Bool.false_eq_true, if_false, hdt]
  cases hrr : c.rruleBetween with
  | some occs =>
    simp only [hrd, if_true]
    rw [rrule_fold_eq]
    unfold phase1_starts
    rw [hrr]
  | none =>
    simp only [hrd, if_true]
    unfold phase1_starts
    rw [hrr, List.foldl_cons, List.foldl_nil]
    have he : s + (end_local_of s c - s) = end_local_of s c := by omega
    rw [he]

/-! ### Helper lemmas: the override index -/

lemma ov_mem_insert_self (m : Overrides) (k : String × Int) (c : VComponent) :
    ov_mem (ov_insert m k c) k = true := by
  unfold ov_insert ov_mem
  by_cases h : m.any (fun p => p.1 == k) = true
  · rw [if_pos h]
    rcases List.any_eq_true.mp h with ⟨p, hp, hpk⟩
    refine List.any_eq_true.mpr ⟨(k, c), List.mem_map.mpr ⟨p, hp, ?_⟩, by simp⟩
    rw [if_pos (by simpa using hpk)]
  · rw [if_neg h]
    refine List.any_eq_true.mpr ⟨(k, c), by simp, by simp⟩

lemma ov_mem_insert_mono (m : Overrides) (k k2 : String × Int) (c : VComponent)
    (h : ov_mem m k2 = true) : ov_mem (ov_insert m k c) k2 = true := by
  by_cases hk : k2 = k
  · subst hk; exact ov_mem_insert_self m k2 c
  · unfold ov_insert ov_mem
    rcases List.any_eq_true.mp h with ⟨p, hp, hpk⟩
    have hpe : ¬(p.1 = k) := by
      intro e
      have hkk : k = k2 := by simpa [e] using hpk
      exact hk hkk.symm
    by_cases hany : m.any (fun p => p.1 == k) = true
    · rw [if_pos hany]
      exact List.any_eq_true.mpr ⟨p, List.mem_map.mpr ⟨p, hp, by rw [if_neg hpe]⟩, hpk⟩
    · rw [if_neg hany]
      exact List.any_eq_true.mpr ⟨p, List.mem_append_left _ hp, hpk⟩

lemma ov_mem_build_fold_mono (k : String × Int) :
    ∀ (L : List VComponent) (m : Overrides), ov_mem m k = true →
      ov_mem (L.foldl (fun m c =>
        match c.recurrence_id with
        | none => m
        | some r => ov_insert m (c.uid, r) c) m) k = true := by
  intro L
  induction L with
  | nil => intro m hm; exact hm
  | cons c L ih =>
    intro m hm
    rw [List.foldl_cons]
    cases hc : c.recurrence_id with
    | none => exact ih m hm
    | some r => exact ih _ (ov_mem_insert_mono m (c.uid, r) k c hm)

lemma ov_mem_build_aux (c : VComponent) (r : Int) (hr : c.recurrence_id = some r) :
    ∀ (L : List VComponent) (m : Overrides), c ∈ L →
      ov_mem (L.foldl (fun m c =>
        match c.recurrence_id with
        | none => m
        | some r => ov_insert m (c.uid, r) c) m) (c.uid, r) = true := by
  intro L
  induction L with
  | nil => intro m hc; cases hc
  | cons a L ih =>
    intro m hc
    rw [List.foldl_cons]
    rcases List.mem_cons.mp hc with h | h
    · subst h
      have he : (match c.recurrence_id with
          | none => m
          | some r => ov_insert m (c.uid, r) c) = ov_insert m (c.uid, r) c := by
        rw [hr]
      rw [he]
      exact ov_mem_build_fold_mono (c.uid, r) L _ (ov_mem_insert_self m (c.uid, r) c)
    · exact ih _ h

lemma ov_mem_build (L : List VComponent) (c : VComponent) (r : Int)
    (hc : c ∈ L) (hr : c.recurrence_id = some r) :
    ov_mem (build_overrides L) (c.uid, r) = true :=
  ov_mem_build_aux c r hr L [] hc

/-! ### Helper lemmas: `add_event_local` buckets -/

lemma add_event_local_bucket_outside (we : List (Int × List EventData)) (c : VComponent)
    (s e : Int) (sm lc : String) (wd : List Int) (u : Option String) (d : Int)
    (h : d < dateOf s ∨ loop_end_of c s e < d) :
    bucket_of (add_event_local we c s e sm lc wd u) d = bucket_of we d := by
  unfold add_event_local
  apply add_days_go_bucket_outside
  omega

lemma add_event_local_bucket_hit (we : List (Int × List EventData)) (c : VComponent)
    (s e : Int) (sm lc : String) (wd : List Int) (u : Option String) (d : Int)
    (h1 : dateOf s ≤ d) (h2 : d ≤ loop_end_of c s e) (h3 : d ∈ wd)
    (h4 : we.any (fun p => p.1 == d) = true) :
    bucket_of (add_event_local we c s e sm lc wd u) d
      = bucket_of we d
        ++ [mk_event (is_all_day_component c) s e (loop_end_of c s e) sm lc u d] := by
  unfold add_event_local
  exact add_days_go_bucket_hit _ _ _ _ _ _ h1 (by omega) h3 h4

lemma add_event_local_map_fst (we : List (Int × List EventData)) (c : VComponent)
    (s e : Int) (sm lc : String) (wd : List Int) (u : Option String) :
    (add_event_local we c s e sm lc wd u).map Prod.fst = we.map Prod.fst := by
  unfold add_event_local
  exact add_days_go_map_fst _ _ _ _ _

/-! ### Helper lemmas: key-set invariance of every operation -/

lemma add_occurrence_map_fst (wd : List Int) (st : St) (c : VComponent)
    (a b : Int) (sm : String) :
    (add_occurrence wd st c a b sm).week_events.map Prod.fst
      = st.week_events.map Prod.fst := by
  unfold add_occurrence
  dsimp only
  split
  · rfl
  · split
    · rfl
    · exact add_event_local_map_fst _ _ _ _ _ _ _ _

lemma apply_cancel_map_fst (st : St) (u sm lc : String) (t : Int) :
    (apply_cancel st u sm lc t).week_events.map Prod.fst
      = st.week_events.map Prod.fst := by
  simp [apply_cancel, List.map_map, Function.comp]

lemma foldl_we_fst {α : Type} (f : St → α → St)
    (hf : ∀ s x, (f s x).week_events.map Prod.fst = s.week_events.map Prod.fst) :
    ∀ (l : List α) (st : St),
      (l.foldl f st).week_events.map Prod.fst = st.week_events.map Prod.fst := by
  intro l
  induction l with
  | nil => intro st; rfl
  | cons x l ih => intro st; rw [List.foldl_cons, ih, hf]

lemma process_component_map_fst (wd : List Int) (ov : Overrides) (st : St)
    (c : VComponent) :
    (process_component wd ov st c).1.week_events.map Prod.fst
      = st.week_events.map Prod.fst := by
  unfold process_component
  dsimp only
  split
  · split
    · rfl
    · exact apply_cancel_map_fst _ _ _ _ _
  · split
    · rfl
    · split
      · rfl
      · have hfold1 : ∀ (l : List Int) (st2 : St) (dur : Int),
            ((l.foldl (fun s occ =>
              if occ ∈ c.exdates then s
              else if ov_mem ov (c.uid, occ) then s
              else add_occurrence wd s c occ (occ + dur) (summary_of c)) st2).week_events.map
                Prod.fst)
              = st2.week_events.map Prod.fst := by
          intro l st2 dur
          apply foldl_we_fst
          intro s x
          split
          · rfl
          · split
            · rfl
            · exact add_occurrence_map_fst _ _ _ _ _ _
        have hfold2 : ∀ (l : List Int) (st2 : St) (dur : Int),
            ((l.foldl (fun s r =>
              if ov_mem ov (c.uid, r) then s
              else add_occurrence wd s c r (r + dur) (summary_of c)) st2).week_events.map
                Prod.fst)
              = st2.week_events.map Prod.fst := by
          intro l st2 dur
          apply foldl_we_fst
          intro s x
          split
          · rfl
          · exact add_occurrence_map_fst _ _ _ _ _ _
        split
        · split
          · simp only
            rw [hfold1]
          · simp only
            rw [add_occurrence_map_fst]
        · split
          · simp only
            rw [hfold2, hfold1]
          · simp only
            rw [hfold2, add_occurrence_map_fst]

lemma process_override_map_fst (wd : List Int) (st : St) (oc : VComponent) :
    (process_override wd st oc).week_events.map Prod.fst
      = st.week_events.map Prod.fst := by
  unfold process_override
  split
  · rfl
  · split
    · rfl
    · exact add_occurrence_map_fst _ _ _ _ _ _

lemma main_loop_map_fst (wd : List Int) (ov : Overrides) :
    ∀ (cs : List VComponent) (p : St × List String),
      (main_loop wd ov cs p).1.week_events.map Prod.fst
        = p.1.week_events.map Prod.fst := by
  intro cs
  unfold main_loop
  induction cs with
  | nil => intro p; rfl
  | cons c cs ih =>
    intro p
    rw [List.foldl_cons, ih]
    exact process_component_map_fst _ _ _ _

lemma override_loop_map_fst (wd : List Int) (ov : Overrides) (st : St) :
    (override_loop wd ov st).week_events.map Prod.fst
      = st.week_events.map Prod.fst := by
  unfold override_loop
  apply foldl_we_fst
  intro s x
  exact process_override_map_fst _ _ _

/-- C10: the week mapping's key set is exactly the five visible days for the
whole run, and neither a registration (`add_occurrence`) nor a cancellation
purge (`apply_cancel`) ever creates an entry for a day outside that set —
segments outside the visible days are silently dropped by the day loop's
membership test. -/
theorem C10_week_key_invariant (monday : Int) (L : List VComponent) :
    ((run monday L).1.week_events.map Prod.fst = week_days_of monday
      ∧ ∀ d, d ∉ week_days_of monday → bucket_of (run monday L).1.week_events d = [])
    ∧ (∀ (wd : List Int) (st : St) (c : VComponent) (a b : Int) (sm : String),
        (add_occurrence wd st c a b sm).week_events.map Prod.fst
          = st.week_events.map Prod.fst)
    ∧ (∀ (st : St) (u sm lc : String) (t : Int),
        (apply_cancel st u sm lc t).week_events.map Prod.fst
          = st.week_events.map Prod.fst) := by
  have hkeys : (run monday L).1.week_events.map Prod.fst = week_days_of monday := by
    unfold run
    dsimp only
    rw [override_loop_map_fst, main_loop_map_fst]
    show (init_state (week_days_of monday)).week_events.map Prod.fst = _
    unfold init_state
    simp only [List.map_map]
    exact List.map_id ((week_days_of monday))
  exact ⟨⟨hkeys, fun d hd => bucket_of_eq_nil_of_not_key _ _ (by rw [hkeys]; exact hd)⟩,
    fun wd st c a b sm => add_occurrence_map_fst wd st c a b sm,
    fun st u sm lc t => apply_cancel_map_fst st u sm lc t⟩

/-! ### Defining equations of `add_occurrence` -/

lemma add_occurrence_of_cancelled (wd : List Int) (st : St) (c : VComponent)
    (t e : Int) (sm : String)
    (h : (dedup_id_of c.uid sm c.location, t) ∈ st.cancelled_occurrences) :
    add_occurrence wd st c t e sm = st := by
  unfold add_occurrence
  dsimp only
  rw [if_pos h]

lemma add_occurrence_of_dedup (wd : List Int) (st : St) (c : VComponent)
    (t e : Int) (sm : String)
    (h1 : (dedup_id_of c.uid sm c.location, t) ∉ st.cancelled_occurrences)
    (h2 : (dedup_id_of c.uid sm c.location, t) ∈ st.dedup_keys) :
    add_occurrence wd st c t e sm = st := by
  unfold add_occurrence
  dsimp only
  rw [if_neg h1, if_pos h2]

lemma add_occurrence_of_new (wd : List Int) (st : St) (c : VComponent)
    (t e : Int) (sm : String)
    (h1 : (dedup_id_of c.uid sm c.location, t) ∉ st.cancelled_occurrences)
    (h2 : (dedup_id_of c.uid sm c.location, t) ∉ st.dedup_keys) :
    add_occurrence wd st c t e sm
      = { dedup_keys := st.dedup_keys ++ [(dedup_id_of c.uid sm c.location, t)]
          cancelled_occurrences := st.cancelled_occurrences.filter
            (fun k => k ≠ (dedup_id_of c.uid sm c.location, t))
          week_events := add_event_local st.week_events c t e sm c.location wd
            (if c.uid = "" then none else some c.uid) } := by
  unfold add_occurrence
  dsimp only
  rw [if_neg h1, if_neg h2]

/-- C3: registering the same occurrence key twice materializes exactly one
occurrence — the second `add_occurrence` call for a key the first call
registered is a no-op, even from a different component, as long as both
derive the same dedup identity. -/
theorem C3_idempotent_registration (wd : List Int) (st : St) (c1 c2 : VComponent)
    (t e1 e2 : Int) (s1 s2 : String)
    (hkey : dedup_id_of c2.uid s2 c2.location = dedup_id_of c1.uid s1 c1.location) :
    add_occurrence wd (add_occurrence wd st c1 t e1 s1) c2 t e2 s2
      = add_occurrence wd st c1 t e1 s1 := by
  by_cases h1 : (dedup_id_of c1.uid s1 c1.location, t) ∈ st.cancelled_occurrences
  · rw [add_occurrence_of_cancelled wd st c1 t e1 s1 h1]
    exact add_occurrence_of_cancelled wd st c2 t e2 s2 (by rw [hkey]; exact h1)
  · by_cases h2 : (dedup_id_of c1.uid s1 c1.location, t) ∈ st.dedup_keys
    · rw [add_occurrence_of_dedup wd st c1 t e1 s1 h1 h2]
      exact add_occurrence_of_dedup wd st c2 t e2 s2 (by rw [hkey]; exact h1) (by rw [hkey]; exact h2)
    · rw [add_occurrence_of_new wd st c1 t e1 s1 h1 h2]
      apply add_occurrence_of_dedup
      · show (dedup_id_of c2.uid s2 c2.location, t)
            ∉ st.cancelled_occurrences.filter (fun k => k ≠ (dedup_id_of c1.uid s1 c1.location, t))
        rw [hkey]
        simp [List.mem_filter]
      · show (dedup_id_of c2.uid s2 c2.location, t)
            ∈ st.dedup_keys ++ [(dedup_id_of c1.uid s1 c1.location, t)]
        rw [hkey]
        simp

/-- C3 witness: a concrete double registration of the same key. -/
theorem C3_idempotent_registration_witness :
    add_occurrence [0, 1, 2, 3, 4]
        (add_occurrence [0, 1, 2, 3, 4] (init_state [0, 1, 2, 3, 4])
          { uid := "w", summary := "A", location := "", status := "", recurrence_id := none,
            dtstart := some 600, dtend := some 660, duration := none, dtstartIsDate := false,
            rruleBetween := none, exdates := [], rdates := [], rdatesMalformed := false }
          600 660 "A")
        { uid := "w", summary := "B", location := "x", status := "", recurrence_id := none,
          dtstart := some 600, dtend := some 720, duration := none, dtstartIsDate := false,
          rruleBetween := none, exdates := [], rdates := [], rdatesMalformed := false }
        600 720 "B"
      = add_occurrence [0, 1, 2, 3, 4] (init_state [0, 1, 2, 3, 4])
          { uid := "w", summary := "A", location := "", status := "", recurrence_id := none,
            dtstart := some 600, dtend := some 660, duration := none, dtstartIsDate := false,
            rruleBetween := none, exdates := [], rdates := [], rdatesMalformed := false }
          600 660 "A" :=
  C3_idempotent_registration [0, 1, 2, 3, 4] (init_state [0, 1, 2, 3, 4]) _ _ 600 660 720 "A" "B"
    (by decide)

/-- A cancellation component for key `("u", 600)` (uid `"u"`, Monday 10:00). -/
def cancelU : VComponent :=
  { uid := "u", summary := "X", location := "", status := "CANCELLED", recurrence_id := none,
    dtstart := some 600, dtend := none, duration := none, dtstartIsDate := false,
    rruleBetween := none, exdates := [], rdates := [], rdatesMalformed := false }

/-- A single timed event registering key `("u", 600)` (Monday 10:00–11:00). -/
def eventU : VComponent :=
  { uid := "u", summary := "X", location := "", status := "", recurrence_id := none,
    dtstart := some 600, dtend := some 660, duration := none, dtstartIsDate := false,
    rruleBetween := none, exdates := [], rdates := [], rdatesMalformed := false }

/-- C2 counterexample: in a run that processes the cancellation before the
component that would register the same key, the occurrence is NOT present in
the output — every day bucket stays empty — contradicting the claim that a
register call on a cancelled key materializes the occurrence. -/
theorem C2_cancel_then_register_counterexample :
    (run 0 [cancelU, eventU]).1.week_events
      = [(0, []), (1, []), (2, []), (3, []), (4, [])] := by decide

/-- C2 amended: a register call on a key that is currently in the cancelled
state is a no-op — the occurrence stays absent (cancellations are
authoritative; only unseen keys are materialized). -/
theorem C2_register_on_cancelled_noop (wd : List Int) (st : St) (c : VComponent)
    (t e : Int) (sm : String)
    (h : (dedup_id_of c.uid sm c.location, t) ∈ st.cancelled_occurrences) :
    add_occurrence wd st c t e sm = st :=
  add_occurrence_of_cancelled wd st c t e sm h

/-- C2 witness: concrete no-op register on a cancelled key. -/
theorem C2_register_on_cancelled_noop_witness :
    add_occurrence [0, 1, 2, 3, 4]
        { dedup_keys := [], cancelled_occurrences := [("u", 600)],
          week_events := [(0, []), (1, []), (2, []), (3, []), (4, [])] }
        eventU 600 660 "X"
      = { dedup_keys := [], cancelled_occurrences := [("u", 600)],
          week_events := [(0, []), (1, []), (2, []), (3, []), (4, [])] } :=
  C2_register_on_cancelled_noop [0, 1, 2, 3, 4] _ eventU 600 660 "X" (by decide)

/-! ### The cancellation branch and claim C1 -/

lemma process_component_cancelled (wd : List Int) (ov : Overrides) (st : St)
    (x : VComponent) (t : Int) (hx : x.status = "CANCELLED")
    (ht : x.recurrence_id.orElse (fun _ => x.dtstart) = some t) :
    process_component wd ov st x
      = (apply_cancel st x.uid (summary_of x) x.location t, none) := by
  unfold process_component
  dsimp only
  rw [if_pos hx, ht]

lemma apply_cancel_eq (st : St) (u sm lc : String) (t : Int) :
    apply_cancel st u sm lc t
      = { dedup_keys := st.dedup_keys.filter (fun k => k ≠ (dedup_id_of u sm lc, t))
          cancelled_occurrences :=
            if (dedup_id_of u sm lc, t) ∈ st.cancelled_occurrences then
              st.cancelled_occurrences
            else st.cancelled_occurrences ++ [(dedup_id_of u sm lc, t)]
          week_events := purge (cancel_filter u sm lc t) st.week_events } := rfl

lemma mem_purge_filter (p : EventData → Bool) (we : List (Int × List EventData)) :
    ∀ q ∈ purge p we, ∀ ev ∈ q.2, p ev = true := by
  intro q hq ev hev
  rcases List.mem_map.mp hq with ⟨q0, _, rfl⟩
  exact (List.mem_filter.mp hev).2

/-- C1 (amended): a registration and a cancellation for the same occurrence
key commute — provided the two components agree componentwise on identity
(same uid; or, for the empty-uid fallback, same summary and same location,
not merely an equal concatenated fallback string).  Both orders yield the
same final state and leave no event matching the cancelled identity and
start instant in any day bucket. -/
theorem C1_cancel_register_commute (wd : List Int) (ov : Overrides) (st : St)
    (c x : VComponent) (t e : Int) (sm : String)
    (hx : x.status = "CANCELLED")
    (ht : x.recurrence_id.orElse (fun _ => x.dtstart) = some t)
    (hid : c.uid = x.uid)
    (hfb : c.uid = "" → sm = summary_of x ∧ c.location = x.location) :
    (process_component wd ov (add_occurrence wd st c t e sm) x).1
        = add_occurrence wd (process_component wd ov st x).1 c t e sm
    ∧ ∀ q ∈ (process_component wd ov (add_occurrence wd st c t e sm) x).1.week_events,
        ∀ ev ∈ q.2, cancel_filter x.uid (summary_of x) x.location t ev = true := by
  have hkey : dedup_id_of c.uid sm c.location
      = dedup_id_of x.uid (summary_of x) x.location := by
    unfold dedup_id_of
    by_cases hu : c.uid = ""
    · have hu2 : x.uid = "" := by rw [← hid]; exact hu
      rw [if_pos hu, if_pos hu2, (hfb hu).1, (hfb hu).2]
    · have hu2 : ¬x.uid = "" := by rw [← hid]; exact hu
      rw [if_neg hu, if_neg hu2, hid]
  rw [process_component_cancelled wd ov (add_occurrence wd st c t e sm) x t hx ht,
    process_component_cancelled wd ov st x t hx ht]
  constructor
  · dsimp only
    by_cases h1 : (dedup_id_of x.uid (summary_of x) x.location, t) ∈ st.cancelled_occurrences
    · have hc2 : (dedup_id_of c.uid sm c.location, t)
          ∈ (apply_cancel st x.uid (summary_of x) x.location t).cancelled_occurrences := by
        rw [hkey, apply_cancel_eq]
        dsimp only
        rw [if_pos h1]
        exact h1
      rw [add_occurrence_of_cancelled wd st c t e sm (by rw [hkey]; exact h1),
        add_occurrence_of_cancelled wd _ c t e sm hc2]
    · have hc2 : (dedup_id_of c.uid sm c.location, t)
          ∈ (apply_cancel st x.uid (summary_of x) x.location t).cancelled_occurrences := by
        rw [hkey, apply_cancel_eq]
        dsimp only
        rw [if_neg h1]
        exact List.mem_append_right _ (by simp)
      by_cases h2 : (dedup_id_of x.uid (summary_of x) x.location, t) ∈ st.dedup_keys
      · rw [add_occurrence_of_dedup wd st c t e sm (by rw [hkey]; exact h1)
          (by rw [hkey]; exact h2),
          add_occurrence_of_cancelled wd _ c t e sm hc2]
      · rw [add_occurrence_of_new wd st c t e sm (by rw [hkey]; exact h1)
          (by rw [hkey]; exact h2),
          add_occurrence_of_cancelled wd _ c t e sm hc2,
          apply_cancel_eq, apply_cancel_eq]
        simp only [St.mk.injEq]
        refine ⟨?_, ?_, ?_⟩
        · dsimp only
          rw [hkey, filter_ne_append_singleton]
        · dsimp only
          rw [hkey]
          rw [if_neg (by simp), if_neg h1, filter_ne_of_not_mem _ _ h1]
        · dsimp only
          apply purge_add_event_local
          intro le cur
          unfold mk_event cancel_filter
          dsimp only
          by_cases hu : x.uid = ""
          · have huc : c.uid = "" := by rw [hid]; exact hu
            rw [if_pos hu]
            simp [(hfb huc).1, (hfb huc).2]
          · rw [if_neg hu]
            have huc : ¬c.uid = "" := by rw [hid]; exact hu
            rw [if_neg huc, hid]
            simp
  · dsimp only
    intro q hq ev hev
    rw [apply_cancel_eq] at hq
    dsimp only at hq
    exact mem_purge_filter _ _ q hq ev hev

/-- A register component whose empty uid makes the dedup identity fall back to
`summary|location` = `a|b|c`. -/
def registerPipe : VComponent :=
  { uid := "", summary := "a", location := "b|c", status := "", recurrence_id := none,
    dtstart := some 0, dtend := some 60, duration := none, dtstartIsDate := false,
    rruleBetween := none, exdates := [], rdates := [], rdatesMalformed := false }

/-- A cancellation whose empty uid yields the same fallback identity
`a|b|c`, but split differently into summary `a|b` and location `c`. -/
def cancelPipe : VComponent :=
  { uid := "", summary := "a|b", location := "c", status := "CANCELLED", recurrence_id := none,
    dtstart := some 0, dtend := none, duration := none, dtstartIsDate := false,
    rruleBetween := none, exdates := [], rdates := [], rdatesMalformed := false }

/-- C1 counterexample: `registerPipe` and `cancelPipe` share the occurrence
key `("a|b|c", 0)`, yet processing [register, cancel] leaves an event with
exactly that key in Monday's bucket (the purge matches summary and location
componentwise, not the concatenated key), while [cancel, register] leaves it
absent — so the final week mapping depends on arrival order and the key is
not absent from every bucket. -/
theorem C1_fallback_key_counterexample :
    bucket_of (run 0 [registerPipe, cancelPipe]).1.week_events 0
      = [{ summary := "a", location := "b|c", time := "00:00 – 01:00", is_all_day := false,
           start_time := 0, uid := none }]
    ∧ (dedup_id_of registerPipe.uid (summary_of registerPipe) registerPipe.location, 0)
        = (dedup_id_of cancelPipe.uid (summary_of cancelPipe) cancelPipe.location, (0 : Int))
    ∧ (run 0 [registerPipe, cancelPipe]).1.cancelled_occurrences = [("a|b|c", 0)]
    ∧ (run 0 [registerPipe, cancelPipe]).1.week_events
        ≠ (run 0 [cancelPipe, registerPipe]).1.week_events := by decide

/-- C1 witness: a concrete uid-keyed register/cancel pair commutes. -/
theorem C1_cancel_register_commute_witness :
    (process_component [0, 1, 2, 3, 4] []
        (add_occurrence [0, 1, 2, 3, 4] (init_state [0, 1, 2, 3, 4]) eventU 600 660 "X")
        cancelU).1
      = add_occurrence [0, 1, 2, 3, 4]
          (process_component [0, 1, 2, 3, 4] [] (init_state [0, 1, 2, 3, 4]) cancelU).1
          eventU 600 660 "X"
    ∧ ∀ q ∈ (process_component [0, 1, 2, 3, 4] []
          (add_occurrence [0, 1, 2, 3, 4] (init_state [0, 1, 2, 3, 4]) eventU 600 660 "X")
          cancelU).1.week_events,
        ∀ ev ∈ q.2, cancel_filter cancelU.uid (summary_of cancelU) cancelU.location 600 ev = true :=
  C1_cancel_register_commute [0, 1, 2, 3, 4] [] (init_state [0, 1, 2, 3, 4]) eventU cancelU
    600 660 "X" rfl rfl rfl (fun h => absurd h (by decide))

/-! ### Override and exclusion precedence (claims C4, C5, C6) -/

lemma not_mem_materialized_of_override (ov : Overrides) (c : VComponent) (s i : Int)
    (occs : List Int) (hrr : c.rruleBetween = some occs)
    (hhit : ov_mem ov (c.uid, i) = true) : i ∉ materialized_starts ov c s := by
  unfold materialized_starts phase1_starts rdate_starts
  rw [hrr]
  intro hmem
  rcases List.mem_append.mp hmem with h | h
  · have h2 := (List.mem_filter.mp h).2
    simp [hhit] at h2
  · have h2 := (List.mem_filter.mp h).2
    simp [hhit] at h2

/-- C4: an instant of a rule-governed component with a matching entry in the
override index is never materialized from the original component — it is
absent from `materialized_starts`, over which the component's whole
processing is exactly a fold of registrations — while the override component
itself is materialized separately, with its own summary, its own start and
end, and placed at its own actual start instant. -/
theorem C4_override_precedence (wd : List Int) (ov : Overrides) (st st2 : St)
    (c o : VComponent) (s s2 i : Int) (occs : List Int)
    (hrr : c.rruleBetween = some occs) (hhit : ov_mem ov (c.uid, i) = true)
    (hst : ¬c.status = "CANCELLED") (hrec : c.recurrence_id = none)
    (hdt : c.dtstart = some s) (hrd : c.rdatesMalformed = false)
    (ho : ¬o.status = "CANCELLED") (hos : o.dtstart = some s2) :
    i ∉ materialized_starts ov c s
    ∧ process_component wd ov st c
        = ((materialized_starts ov c s).foldl
            (fun q t2 =>
              add_occurrence wd q c t2 (t2 + (end_local_of s c - s)) (summary_of c)) st,
           none)
    ∧ process_override wd st2 o
        = add_occurrence wd st2 o s2 (end_local_of s2 o) (summary_of o) := by
  refine ⟨not_mem_materialized_of_override ov c s i occs hrr hhit,
    process_component_eq wd ov st c s hst hrec hdt hrd, ?_⟩
  unfold process_override
  rw [if_neg ho, hos]

/-- The override component used in the C4 witness. -/
def overrideW : VComponent :=
  { uid := "u4", summary := "Neu", location := "Raum 2", status := "", recurrence_id := some 720,
    dtstart := some 840, dtend := some 900, duration := none, dtstartIsDate := false,
    rruleBetween := none, exdates := [], rdates := [], rdatesMalformed := false }

/-- The rule-governed base component used in the C4 witness. -/
def seriesW : VComponent :=
  { uid := "u4", summary := "Alt", location := "", status := "", recurrence_id := none,
    dtstart := some 720, dtend := some 780, duration := none, dtstartIsDate := false,
    rruleBetween := some [720], exdates := [], rdates := [], rdatesMalformed := false }

/-- C4 witness: concrete override suppression and separate materialization. -/
theorem C4_override_precedence_witness :
    (720 : Int) ∉ materialized_starts [(("u4", 720), overrideW)] seriesW 720
    ∧ process_component [0, 1, 2, 3, 4] [(("u4", 720), overrideW)]
          (init_state [0, 1, 2, 3, 4]) seriesW
        = ((materialized_starts [(("u4", 720), overrideW)] seriesW 720).foldl
            (fun q t2 =>
              add_occurrence [0, 1, 2, 3, 4] q seriesW t2
                (t2 + (end_local_of 720 seriesW - 720)) (summary_of seriesW))
            (init_state [0, 1, 2, 3, 4]),
           none)
    ∧ process_override [0, 1, 2, 3, 4] (init_state [0, 1, 2, 3, 4]) overrideW
        = add_occurrence [0, 1, 2, 3, 4] (init_state [0, 1, 2, 3, 4]) overrideW 840
            (end_local_of 840 overrideW) (summary_of overrideW) :=
  C4_override_precedence [0, 1, 2, 3, 4] [(("u4", 720), overrideW)]
    (init_state [0, 1, 2, 3, 4]) (init_state [0, 1, 2, 3, 4]) seriesW overrideW
    720 840 720 [720] rfl (by decide) (by decide) rfl rfl rfl (by decide) rfl

/-- C5: a cancelled override is never materialized by the override loop, and
the base series never materializes the replaced instant either (the override
index is built from all components carrying a RECURRENCE-ID, cancelled ones
included); together with the component processing being exactly the fold over
`materialized_starts`, the net effect is removal of that single occurrence,
not replacement. -/
theorem C5_cancelled_override_removes (wd : List Int) (st st2 : St)
    (L : List VComponent) (oc c : VComponent) (r s : Int) (occs : List Int)
    (h1 : oc.status = "CANCELLED") (h2 : oc.recurrence_id = some r)
    (hmem : oc ∈ L) (huid : c.uid = oc.uid) (hrr : c.rruleBetween = some occs)
    (hst : ¬c.status = "CANCELLED") (hrec : c.recurrence_id = none)
    (hdt : c.dtstart = some s) (hrd : c.rdatesMalformed = false) :
    process_override wd st oc = st
    ∧ r ∉ materialized_starts (build_overrides L) c s
    ∧ process_component wd (build_overrides L) st2 c
        = ((materialized_starts (build_overrides L) c s).foldl
            (fun q t2 =>
              add_occurrence wd q c t2 (t2 + (end_local_of s c - s)) (summary_of c)) st2,
           none) := by
  refine ⟨?_, ?_, process_component_eq wd (build_overrides L) st2 c s hst hrec hdt hrd⟩
  · unfold process_override
    rw [if_pos h1]
  · apply not_mem_materialized_of_override _ _ _ _ occs hrr
    rw [huid]
    exact ov_mem_build L oc r hmem h2

/-- The cancelled override used in the C5 witness. -/
def cancelledOverrideW : VComponent :=
  { uid := "u5", summary := "Weg", location := "", status := "CANCELLED",
    recurrence_id := some 1440, dtstart := some 1440, dtend := some 1500, duration := none,
    dtstartIsDate := false, rruleBetween := none, exdates := [], rdates := [],
    rdatesMalformed := false }

/-- The rule-governed base component used in the C5 witness. -/
def seriesW5 : VComponent :=
  { uid := "u5", summary := "Serie", location := "", status := "", recurrence_id := none,
    dtstart := some 0, dtend := some 60, duration := none, dtstartIsDate := false,
    rruleBetween := some [0, 1440, 2880], exdates := [], rdates := [],
    rdatesMalformed := false }

/-- C5 witness: a concrete cancelled override removes its single instant. -/
theorem C5_cancelled_override_removes_witness :
    process_override [0, 1, 2, 3, 4] (init_state [0, 1, 2, 3, 4]) cancelledOverrideW
        = init_state [0, 1, 2, 3, 4]
    ∧ (1440 : Int) ∉ materialized_starts
        (build_overrides [seriesW5, cancelledOverrideW]) seriesW5 0
    ∧ process_component [0, 1, 2, 3, 4] (build_overrides [seriesW5, cancelledOverrideW])
          (init_state [0, 1, 2, 3, 4]) seriesW5
        = ((materialized_starts (build_overrides [seriesW5, cancelledOverrideW]) seriesW5 0).foldl
            (fun q t2 =>
              add_occurrence [0, 1, 2, 3, 4] q seriesW5 t2
                (t2 + (end_local_of 0 seriesW5 - 0)) (summary_of seriesW5))
            (init_state [0, 1, 2, 3, 4]),
           none) :=
  C5_cancelled_override_removes [0, 1, 2, 3, 4] (init_state [0, 1, 2, 3, 4])
    (init_state [0, 1, 2, 3, 4]) [seriesW5, cancelledOverrideW] cancelledOverrideW seriesW5
    1440 0 [0, 1440, 2880] rfl rfl (by decide) rfl rfl (by decide) rfl rfl rfl

/-- The component of the C6 counterexample: an RDATE instant that is also an
EXDATE instant. -/
def rdateExcluded : VComponent :=
  { uid := "u6", summary := "S6", location := "", status := "", recurrence_id := none,
    dtstart := some 0, dtend := some 60, duration := none, dtstartIsDate := false,
    rruleBetween := some [], exdates := [2880], rdates := [2880], rdatesMalformed := false }

/-- C6 counterexample: instant 2880 (Wednesday 00:00) is in the component's
exclusion set, yet, supplied as an additional explicit date, it IS
materialized — the RDATE loop checks the override index but never the
exclusion set, so additional dates are not expanded through the same
exclusion logic. -/
theorem C6_rdate_exclusion_counterexample :
    (2880 : Int) ∈ rdateExcluded.exdates
    ∧ bucket_of (run 0 [rdateExcluded]).1.week_events 2
        = [{ summary := "S6", location := "", time := "00:00 – 01:00", is_all_day := false,
             start_time := 2880, uid := some "u6" }] := by decide

/-- C6 amended: an instant present in both the rule-generated sequence and
the exclusion set never materializes — it is dropped from `phase1_starts`,
over which (together with the unfiltered RDATE instants) the component's
processing is exactly a fold of registrations.  Additional explicit dates
are subject to the override lookup but NOT to the exclusion filter. -/
theorem C6_exclusion_rule_instants_only (wd : List Int) (ov : Overrides) (st : St)
    (c : VComponent) (s i : Int) (occs : List Int)
    (hrr : c.rruleBetween = some occs) (hex : i ∈ c.exdates)
    (hst : ¬c.status = "CANCELLED") (hrec : c.recurrence_id = none)
    (hdt : c.dtstart = some s) (hrd : c.rdatesMalformed = false) :
    i ∉ phase1_starts ov c s
    ∧ process_component wd ov st c
        = ((phase1_starts ov c s ++ rdate_starts ov c).foldl
            (fun q t2 =>
              add_occurrence wd q c t2 (t2 + (end_local_of s c - s)) (summary_of c)) st,
           none) := by
  constructor
  · unfold phase1_starts
    rw [hrr]
    intro hmem
    have h2 := (List.mem_filter.mp hmem).2
    simp [hex] at h2
  · exact process_component_eq wd ov st c s hst hrec hdt hrd

/-- C6 witness: a concrete excluded rule instant never materializes. -/
theorem C6_exclusion_rule_instants_only_witness :
    (2880 : Int) ∉ phase1_starts [] rdateExcluded 0
    ∧ process_component [0, 1, 2, 3, 4] [] (init_state [0, 1, 2, 3, 4]) rdateExcluded
        = ((phase1_starts [] rdateExcluded 0 ++ rdate_starts [] rdateExcluded).foldl
            (fun q t2 =>
              add_occurrence [0, 1, 2, 3, 4] q rdateExcluded t2
                (t2 + (end_local_of 0 rdateExcluded - 0)) (summary_of rdateExcluded))
            (init_state [0, 1, 2, 3, 4]),
           none) :=
  C6_exclusion_rule_instants_only [0, 1, 2, 3, 4] [] (init_state [0, 1, 2, 3, 4])
    rdateExcluded 0 2880 [] rfl (by decide) (by decide) rfl rfl rfl

/-! ### Span splitting (claims C7, C8) -/

/-- The component of the C7 counterexample: an all-day component with DTSTART
only (so its end instant equals its start instant — zero duration). -/
def allDayZeroDuration : VComponent :=
  { uid := "u7", summary := "S7", location := "", status := "", recurrence_id := none,
    dtstart := some (3 * 1440), dtend := none, duration := none, dtstartIsDate := true,
    rruleBetween := none, exdates := [], rdates := [], rdatesMalformed := false }

/-- C7 counterexample: a zero-duration all-day occurrence (end date = start
date = Thursday, day 3) gets its segment ON the end date itself, because the
end-exclusive pull-back only fires when the end instant is strictly after the
start instant — contradicting "never the end date itself" for every all-day
occurrence. -/
theorem C7_zero_duration_allday_counterexample :
    is_all_day_component allDayZeroDuration = true
    ∧ dateOf (end_local_of (3 * 1440) allDayZeroDuration) = 3
    ∧ bucket_of (run 0 [allDayZeroDuration]).1.week_events 3
        = [{ summary := "S7", location := "", time := "Ganztägig", is_all_day := true,
             start_time := 3 * 1440, uid := some "u7" }] := by decide

/-- C7 amended: for an occurrence that is all-day or ends at midnight,
PROVIDED the end instant is strictly after the start instant, the last day
that can receive a segment is the calendar day before the end date — no
bucket on or after the end date changes, and the day before the end date
receives exactly one new segment whenever it is visible and not before the
start day. -/
theorem C7_end_exclusive_last_day (we : List (Int × List EventData)) (c : VComponent)
    (s e : Int) (sm lc : String) (wd : List Int) (u : Option String)
    (hc : is_all_day_component c = true ∨ timeOf e = 0) (hpos : s < e) :
    (∀ d, dateOf e ≤ d →
        bucket_of (add_event_local we c s e sm lc wd u) d = bucket_of we d)
    ∧ (dateOf s ≤ dateOf e - 1 → (dateOf e - 1) ∈ wd →
        we.any (fun p => p.1 == dateOf e - 1) = true →
        bucket_of (add_event_local we c s e sm lc wd u) (dateOf e - 1)
          = bucket_of we (dateOf e - 1)
            ++ [mk_event (is_all_day_component c) s e (loop_end_of c s e) sm lc u
                  (dateOf e - 1)]) := by
  have hle : loop_end_of c s e = dateOf e - 1 := by
    unfold loop_end_of
    rw [if_pos ⟨hc, hpos⟩]
  constructor
  · intro d hd
    apply add_event_local_bucket_outside
    right
    rw [hle]
    omega
  · intro hsd hwd hkey
    exact add_event_local_bucket_hit we c s e sm lc wd u (dateOf e - 1) hsd
      (by rw [hle]) hwd hkey

/-- The all-day Thursday–Friday occurrence (exclusive end date Saturday,
day 5) of the spec's scenario, used in the C7 witness. -/
def allDayThuFri : VComponent :=
  { uid := "u7s", summary := "S7s", location := "", status := "", recurrence_id := none,
    dtstart := some (3 * 1440), dtend := some (5 * 1440), duration := none,
    dtstartIsDate := true, rruleBetween := none, exdates := [], rdates := [],
    rdatesMalformed := false }

/-- C7 witness: the Saturday-exclusive all-day scenario — no bucket on or
after Saturday changes, Friday receives the segment, and in the whole run
Thursday and Friday each hold one all-day segment. -/
theorem C7_end_exclusive_last_day_witness :
    ((∀ d, dateOf (5 * 1440 : Int) ≤ d →
        bucket_of (add_event_local (init_state [0, 1, 2, 3, 4]).week_events allDayThuFri
          (3 * 1440) (5 * 1440) "S7s" "" [0, 1, 2, 3, 4] (some "u7s")) d
          = bucket_of (init_state [0, 1, 2, 3, 4]).week_events d)
    ∧ (dateOf (3 * 1440 : Int) ≤ dateOf (5 * 1440 : Int) - 1 →
        (dateOf (5 * 1440 : Int) - 1) ∈ [(0 : Int), 1, 2, 3, 4] →
        (init_state [0, 1, 2, 3, 4]).week_events.any
          (fun p => p.1 == dateOf (5 * 1440 : Int) - 1) = true →
        bucket_of (add_event_local (init_state [0, 1, 2, 3, 4]).week_events allDayThuFri
          (3 * 1440) (5 * 1440) "S7s" "" [0, 1, 2, 3, 4] (some "u7s"))
          (dateOf (5 * 1440 : Int) - 1)
          = bucket_of (init_state [0, 1, 2, 3, 4]).week_events (dateOf (5 * 1440 : Int) - 1)
            ++ [mk_event (is_all_day_component allDayThuFri) (3 * 1440) (5 * 1440)
                  (loop_end_of allDayThuFri (3 * 1440) (5 * 1440)) "S7s" "" (some "u7s")
                  (dateOf (5 * 1440 : Int) - 1)]))
    ∧ bucket_of (run 0 [allDayThuFri]).1.week_events 3
        = [{ summary := "S7s", location := "", time := "Ganztägig", is_all_day := true,
             start_time := 3 * 1440, uid := some "u7s" }]
    ∧ bucket_of (run 0 [allDayThuFri]).1.week_events 4
        = [{ summary := "S7s", location := "", time := "Ganztägig", is_all_day := true,
             start_time := 3 * 1440, uid := some "u7s" }] :=
  ⟨C7_end_exclusive_last_day (init_state [0, 1, 2, 3, 4]).week_events allDayThuFri
      (3 * 1440) (5 * 1440) "S7s" "" [0, 1, 2, 3, 4] (some "u7s")
      (Or.inl (by decide)) (by decide),
    by decide, by decide⟩

lemma label_nine_to_midnight (D : Int) :
    event_label false (1440 * D + 540) (1440 * (D + 1)) D D = ("09:00 – 00:00", false) := by
  have h1 : dateOf (1440 * D + 540) = D := by unfold dateOf; omega
  have h2 : dateOf (1440 * (D + 1)) = D + 1 := by unfold dateOf; omega
  have h3 : timeOf (1440 * (D + 1)) = 0 := by unfold timeOf; omega
  have h4 : timeOf (1440 * D + 540) = 540 := by unfold timeOf; omega
  unfold event_label
  rw [if_neg (by simp)]
  dsimp only
  rw [h1, h2, h3, h4]
  rw [if_neg (by omega), if_pos ⟨⟨rfl, by omega⟩, rfl⟩, if_neg (by omega)]
  unfold fmtHM
  rw [h4]
  rfl

lemma label_midnight_to_midnight (D : Int) :
    event_label false (1440 * D) (1440 * (D + 1)) D D = ("Ganztägig", true) := by
  have h1 : dateOf (1440 * D) = D := by unfold dateOf; omega
  have h2 : dateOf (1440 * (D + 1)) = D + 1 := by unfold dateOf; omega
  have h3 : timeOf (1440 * (D + 1)) = 0 := by unfold timeOf; omega
  have h4 : timeOf (1440 * D) = 0 := by unfold timeOf; omega
  unfold event_label
  rw [if_neg (by simp)]
  dsimp only
  rw [h1, h2, h3, h4]
  rw [if_neg (by omega), if_pos ⟨⟨rfl, by omega⟩, rfl⟩, if_pos rfl]
  rfl

lemma loop_end_next_midnight (c : VComponent) (s : Int) (D : Int)
    (hs : 1440 * D ≤ s) (hs2 : s < 1440 * (D + 1)) :
    loop_end_of c s (1440 * (D + 1)) = D := by
  unfold loop_end_of
  rw [if_pos ⟨Or.inr (by unfold timeOf; omega), by omega⟩]
  unfold dateOf
  omega

/-- C8: a timed occurrence from day `D` 09:00 to day `D+1` 00:00 produces
exactly one segment, on day `D`, labeled `09:00 – 00:00` and not all-day,
and no bucket of any other day changes (in particular none on `D+1`);
if instead it runs midnight-to-midnight, the single day-`D` segment is
labeled all-day. -/
theorem C8_midnight_boundary_segments (we : List (Int × List EventData)) (c : VComponent)
    (sm lc : String) (wd : List Int) (u : Option String) (D : Int)
    (hall : is_all_day_component c = false) (hD : D ∈ wd)
    (hkey : we.any (fun p => p.1 == D) = true) :
    bucket_of (add_event_local we c (1440 * D + 540) (1440 * (D + 1)) sm lc wd u) D
        = bucket_of we D
          ++ [{ summary := sm, location := lc, time := "09:00 – 00:00", is_all_day := false,
                start_time := 1440 * D + 540, uid := u }]
    ∧ (∀ d, d ≠ D →
        bucket_of (add_event_local we c (1440 * D + 540) (1440 * (D + 1)) sm lc wd u) d
          = bucket_of we d)
    ∧ bucket_of (add_event_local we c (1440 * D) (1440 * (D + 1)) sm lc wd u) D
        = bucket_of we D
          ++ [{ summary := sm, location := lc, time := "Ganztägig", is_all_day := true,
                start_time := 1440 * D, uid := u }]
    ∧ (∀ d, d ≠ D →
        bucket_of (add_event_local we c (1440 * D) (1440 * (D + 1)) sm lc wd u) d
          = bucket_of we d) := by
  have hd1 : dateOf (1440 * D + 540) = D := by unfold dateOf; omega
  have hd2 : dateOf (1440 * D) = D := by unfold dateOf; omega
  have hle1 : loop_end_of c (1440 * D + 540) (1440 * (D + 1)) = D :=
    loop_end_next_midnight c _ D (by omega) (by omega)
  have hle2 : loop_end_of c (1440 * D) (1440 * (D + 1)) = D :=
    loop_end_next_midnight c _ D (by omega) (by omega)
  refine ⟨?_, ?_, ?_, ?_⟩
  · rw [add_event_local_bucket_hit we c _ _ sm lc wd u D (by rw [hd1]) (by rw [hle1]) hD hkey]
    unfold mk_event
    rw [hall, hle1]
    dsimp only
    rw [label_nine_to_midnight D]
  · intro d hd
    apply add_event_local_bucket_outside
    rw [hd1, hle1]
    omega
  · rw [add_event_local_bucket_hit we c _ _ sm lc wd u D (by rw [hd2]) (by rw [hle2]) hD hkey]
    unfold mk_event
    rw [hall, hle2]
    dsimp only
    rw [label_midnight_to_midnight D]
  · intro d hd
    apply add_event_local_bucket_outside
    rw [hd2, hle2]
    omega

/-- The timed Tuesday 09:00 → Wednesday 00:00 component of the C8 witness. -/
def timedToMidnight : VComponent :=
  { uid := "u8", summary := "S8", location := "", status := "", recurrence_id := none,
    dtstart := some (1440 + 540), dtend := some 2880, duration := none, dtstartIsDate := false,
    rruleBetween := none, exdates := [], rdates := [], rdatesMalformed := false }

/-- C8 witness: the concrete Tuesday-to-midnight boundary behavior. -/
theorem C8_midnight_boundary_segments_witness :
    bucket_of (add_event_local (init_state [0, 1, 2, 3, 4]).week_events timedToMidnight
        (1440 * 1 + 540) (1440 * (1 + 1)) "S8" "" [0, 1, 2, 3, 4] (some "u8")) 1
        = bucket_of (init_state [0, 1, 2, 3, 4]).week_events 1
          ++ [{ summary := "S8", location := "", time := "09:00 – 00:00", is_all_day := false,
                start_time := 1440 * 1 + 540, uid := some "u8" }]
    ∧ (∀ d, d ≠ (1 : Int) →
        bucket_of (add_event_local (init_state [0, 1, 2, 3, 4]).week_events timedToMidnight
          (1440 * 1 + 540) (1440 * (1 + 1)) "S8" "" [0, 1, 2, 3, 4] (some "u8")) d
          = bucket_of (init_state [0, 1, 2, 3, 4]).week_events d)
    ∧ bucket_of (add_event_local (init_state [0, 1, 2, 3, 4]).week_events timedToMidnight
        (1440 * 1) (1440 * (1 + 1)) "S8" "" [0, 1, 2, 3, 4] (some "u8")) 1
        = bucket_of (init_state [0, 1, 2, 3, 4]).week_events 1
          ++ [{ summary := "S8", location := "", time := "Ganztägig", is_all_day := true,
                start_time := 1440 * 1, uid := some "u8" }]
    ∧ (∀ d, d ≠ (1 : Int) →
        bucket_of (add_event_local (init_state [0, 1, 2, 3, 4]).week_events timedToMidnight
          (1440 * 1) (1440 * (1 + 1)) "S8" "" [0, 1, 2, 3, 4] (some "u8")) d
          = bucket_of (init_state [0, 1, 2, 3, 4]).week_events d) :=
  C8_midnight_boundary_segments (init_state [0, 1, 2, 3, 4]).week_events timedToMidnight
    "S8" "" [0, 1, 2, 3, 4] (some "u8") 1 (by decide) (by decide) (by decide)

/-! ### Error isolation (claim C9) -/

/-- The component of the C9 counterexample: a well-formed single event whose
RDATE property is malformed, so an exception is raised AFTER the occurrence
was already added to the buckets. -/
def malformedRdate : VComponent :=
  { uid := "u9", summary := "S9", location := "", status := "", recurrence_id := none,
    dtstart := some 540, dtend := some 600, duration := none, dtstartIsDate := false,
    rruleBetween := none, exdates := [], rdates := [], rdatesMalformed := true }

/-- C9 counterexample: the failing component both triggers an error report
AND contributes an occurrence to the output (its single-event registration
ran before the RDATE step raised), contradicting "the failing component
contributes no occurrences to the output". -/
theorem C9_partial_contribution_counterexample :
    (run 0 [malformedRdate]).2 = ["Fehler beim Verarbeiten eines Termins: S9"]
    ∧ bucket_of (run 0 [malformedRdate]).1.week_events 0
        = [{ summary := "S9", location := "", time := "09:00 – 10:00", is_all_day := false,
             start_time := 540, uid := some "u9" }] := by decide

/-- C9 amended: a per-component failure never aborts the batch — the main
loop over `L1 ++ L2` always processes `L2` from the state `L1` left behind,
whatever errors occurred — and a component failing at the RDATE step keeps
every registration its rrule/single-event phase already made while the error
is reported; so the run yields a partial week mapping that may include the
failing component's earlier contributions. -/
theorem C9_failure_isolation (wd : List Int) (ov : Overrides) (L1 L2 : List VComponent)
    (p : St × List String) (st : St) (c : VComponent) (s : Int)
    (hst : ¬c.status = "CANCELLED") (hrec : c.recurrence_id = none)
    (hdt : c.dtstart = some s) (hrd : c.rdatesMalformed = true) :
    main_loop wd ov (L1 ++ L2) p = main_loop wd ov L2 (main_loop wd ov L1 p)
    ∧ process_component wd ov st c
        = ((phase1_starts ov c s).foldl
            (fun q t2 =>
              add_occurrence wd q c t2 (t2 + (end_local_of s c - s)) (summary_of c)) st,
           some ("Fehler beim Verarbeiten eines Termins: " ++ summary_of c)) := by
  refine ⟨?_, process_component_malformed wd ov st c s hst hrec hdt hrd⟩
  unfold main_loop
  rw [List.foldl_append]

/-- C9 witness: concrete batch continuation past the failing component. -/
theorem C9_failure_isolation_witness :
    main_loop [0, 1, 2, 3, 4] [] ([malformedRdate] ++ [eventU])
        (init_state [0, 1, 2, 3, 4], [])
      = main_loop [0, 1, 2, 3, 4] [] [eventU]
          (main_loop [0, 1, 2, 3, 4] [] [malformedRdate] (init_state [0, 1, 2, 3, 4], []))
    ∧ process_component [0, 1, 2, 3, 4] [] (init_state [0, 1, 2, 3, 4]) malformedRdate
        = ((phase1_starts [] malformedRdate 540).foldl
            (fun q t2 =>
              add_occurrence [0, 1, 2, 3, 4] q malformedRdate t2
                (t2 + (end_local_of 540 malformedRdate - 540)) (summary_of malformedRdate))
            (init_state [0, 1, 2, 3, 4]),
           some ("Fehler beim Verarbeiten eines Termins: " ++ summary_of malformedRdate)) :=
  C9_failure_isolation [0, 1, 2, 3, 4] [] [malformedRdate] [eventU]
    (init_state [0, 1, 2, 3, 4], []) (init_state [0, 1, 2, 3, 4]) malformedRdate 540
    (by decide) rfl rfl rfl

/-- C10 witness: the key-set invariant on a concrete run. -/
theorem C10_week_key_invariant_witness :
    (((run 0 [eventU]).1.week_events.map Prod.fst = week_days_of 0
      ∧ ∀ d, d ∉ week_days_of 0 → bucket_of (run 0 [eventU]).1.week_events d = [])
    ∧ (∀ (wd : List Int) (st : St) (c : VComponent) (a b : Int) (sm : String),
        (add_occurrence wd st c a b sm).week_events.map Prod.fst
          = st.week_events.map Prod.fst)
    ∧ (∀ (st : St) (u sm lc : String) (t : Int),
        (apply_cancel st u sm lc t).week_events.map Prod.fst
          = st.week_events.map Prod.fst)) :=
  C10_week_key_invariant 0 [eventU]
